import Mathlib

/-!
Verification of the commit timeline / TLOC subsystem of the git-viewer
repository (src/git_viewer/timeline_panel.py), via a shallow embedding.

Modelling conventions:
* A git tree is an association list from file path to file text content
  (`GitTree`); `lookupPath` models content retrieval (`repo.git.show sha:path`),
  returning `none` exactly when the path is absent (the Python wrapper turns
  any such failure into the canonical `(0, 0, 0)` result).
* Python string operations (`str.splitlines`, `str.strip`, `str.lower`,
  `os.path.splitext`, `os.path.basename`, `str.split('.')`) are embedded
  character-by-character for the ASCII strings manipulated here.
* Python numbers: line counts are `Nat`; the aggregator's float arithmetic
  (`/`, `* 1.2`) is modelled exactly over `Rat`, and Python `int()` applied
  to these non-negative values is `Int.floor` (truncation toward zero and
  floor agree on non-negative values).
-/

/-- One element of the `(total_lines, code_lines, blank_lines)` tuples
returned by the line counters in `TlocCalculator`. -/
structure LineCounts where
  total : Nat
  code : Nat
  blank : Nat
deriving DecidableEq, Repr

/-- Character-level model of Python `str.splitlines` for ASCII content:
splits on `\n`, `\r` and `\r\n`; a trailing line without a final newline is
kept, and a trailing newline does not create an extra empty line. -/
def splitlinesAux : List Char → List Char → List String
  | [], acc => if acc.isEmpty then [] else [String.mk acc.reverse]
  | '\r' :: '\n' :: rest, acc => String.mk acc.reverse :: splitlinesAux rest []
  | '\r' :: rest, acc => String.mk acc.reverse :: splitlinesAux rest []
  | '\n' :: rest, acc => String.mk acc.reverse :: splitlinesAux rest []
  | c :: rest, acc => splitlinesAux rest (c :: acc)

/-- Python `content.splitlines()`. -/
def pySplitlines (s : String) : List String :=
  splitlinesAux s.toList []

/-- ASCII whitespace recognised by Python `str.strip()`. -/
def isPySpace (c : Char) : Bool :=
  c = ' ' || c = '\t' || c = '\n' || c = '\r' || c = Char.ofNat 11 || c = Char.ofNat 12

/-- Python `line.strip() == ''`: the line is empty or whitespace-only. -/
def isBlankLine (l : String) : Bool :=
  l.toList.all isPySpace

/-- Line counting shared by `count_lines_in_file` and
`calculate_file_tloc_at_commit`: `total` is the number of lines, `blank`
counts lines that strip to empty, and `code = total - blank`. -/
def countLineContent (content : String) : LineCounts :=
  let lines := pySplitlines content
  let total := lines.length
  let blank := (lines.filter isBlankLine).length
  ⟨total, total - blank, blank⟩

/-- The `TlocCalculator.CODE_EXTENSIONS` set (the classifier lowercases the
path first, so only the lowercase entries are reachable; `.R` is kept for
fidelity). -/
def CODE_EXTENSIONS : List String :=
  [".py", ".js", ".ts", ".jsx", ".tsx", ".java", ".c", ".cpp", ".cc", ".cxx",
   ".h", ".hpp", ".cs", ".php", ".rb", ".go", ".rs", ".kt", ".swift", ".m",
   ".mm", ".scala", ".clj", ".hs", ".ml", ".fs", ".vb", ".pas", ".d", ".nim",
   ".cr", ".jl", ".elm", ".dart", ".v", ".sv", ".vhd", ".vhdl", ".tcl", ".r",
   ".R", ".sh", ".bash", ".zsh", ".fish", ".ps1", ".bat", ".cmd", ".pl", ".pm",
   ".lua", ".sql", ".html", ".htm", ".css", ".scss", ".sass", ".less", ".xml",
   ".json", ".yaml", ".yml", ".toml", ".ini", ".cfg", ".conf", ".md", ".tex",
   ".makefile", ".cmake", ".gradle", ".maven", ".ant", ".sbt", ".mix", ".ex",
   ".exs", ".erl", ".hrl", ".proto", ".thrift", ".avro", ".capnp", ".fbs"]

/-- The `code_filenames` set inside `TlocCalculator.is_code_file`. -/
def code_filenames : List String :=
  ["makefile", "dockerfile", "vagrantfile", "gemfile", "rakefile",
   "gruntfile", "gulpfile", "webpack", "rollup", "vite", "jest",
   "babel", "eslint", "prettier", "tsconfig", "package", "composer",
   "requirements", "pipfile", "poetry", "cargo", "go.mod", "go.sum"]

/-- Python `str.lower()` restricted to ASCII. -/
def pyLower (s : String) : String :=
  String.mk (s.toList.map Char.toLower)

/-- Characters of a path after its last slash (`os.path.basename` for POSIX
paths). -/
def basenameChars (cs : List Char) : List Char :=
  (cs.reverse.takeWhile (fun c => c ≠ '/')).reverse

/-- Python `os.path.basename`. -/
def pyBasename (p : String) : String :=
  String.mk (basenameChars p.toList)

/-- The extension part of `os.path.splitext`: the suffix starting at the
last dot of the basename, unless every character of the basename before
that dot is itself a dot (so `.gitignore` and `..py` have no extension). -/
def splitextExt (p : String) : String :=
  let name := basenameChars p.toList
  if name.contains '.' then
    let d := name.length - 1 - name.reverse.indexOf '.'
    if (name.take d).any (fun c => c ≠ '.') then String.mk (name.drop d) else ""
  else ""

/-- Python `filename.split('.')[0]`: the prefix of the basename before its
first dot (the whole basename when it has no dot). -/
def firstDotSegment (filename : String) : String :=
  String.mk (filename.toList.takeWhile (fun c => c ≠ '.'))

/-- `TlocCalculator.is_code_file`: lowercase the path, accept when the
`splitext` extension is in `CODE_EXTENSIONS`, otherwise when the basename's
first dot-segment is in `code_filenames`. -/
def is_code_file (filepath : String) : Bool :=
  let lowered := pyLower filepath
  let ext := splitextExt lowered
  let filename := pyBasename lowered
  if CODE_EXTENSIONS.contains ext then
    true
  else
    code_filenames.contains (firstDotSegment filename)

/-- A git tree at one commit: association list from path to full text
content.  Paths are listed in tree-listing order. -/
def GitTree := List (String × String)

/-- Content of `path` in `tree`, `none` when absent: models
`repo.git.show(commit:path)` together with the enclosing try/except. -/
def lookupPath (tree : GitTree) (p : String) : Option String :=
  match tree with
  | [] => none
  | (q, c) :: rest => if q = p then some c else lookupPath rest p

/-- `TlocCalculator.calculate_file_tloc_at_commit`: the single-file exact
counter.  An absent path (or any failing read) yields `(0, 0, 0)`; the
function is total, so it never raises to its caller. -/
def calculate_file_tloc_at_commit (tree : GitTree) (path : String) : LineCounts :=
  match lookupPath tree path with
  | none => ⟨0, 0, 0⟩
  | some content => countLineContent content

/-- The paths of all code files in the commit's tree, in tree-listing order
(`code_files` inside `calculate_project_tloc_at_commit`). -/
def code_files_of (tree : GitTree) : List String :=
  (tree.map Prod.fst).filter (fun f => is_code_file f)

/-- `sample_size = min(10, len(code_files))`. -/
def sample_size_of (tree : GitTree) : Nat :=
  min 10 (code_files_of tree).length

/-- `sample_files = code_files[:sample_size]`: the paths whose full content
the aggregator reads. -/
def sample_files_of (tree : GitTree) : List String :=
  (code_files_of tree).take (sample_size_of tree)

/-- `total_lines_sample`: the sum of the code-line counts of the sampled
files (the Python loop adds the `code` component of each read). -/
def total_lines_sample_of (tree : GitTree) : Nat :=
  ((sample_files_of tree).map
    (fun p => (calculate_file_tloc_at_commit tree p).code)).sum

/-- The `result['totals']` dictionary of
`TlocCalculator.calculate_project_tloc_at_commit`, plus the list of paths
whose content the aggregator read (its trace of full-content reads). -/
structure ProjectTloc where
  file_count : Nat
  total_lines : Nat
  code_lines : Nat
  blank_lines : Nat
  sampled_files : List String
deriving DecidableEq, Repr

/-- `estimated_total = int(avg_lines_per_file * len(code_files))` where
`avg_lines_per_file = total_lines_sample / sample_size`: Python `int()` on
a non-negative value is `Int.floor`. -/
def estimated_code_lines_of (tree : GitTree) : Nat :=
  (Int.floor ((total_lines_sample_of tree : Rat) / (sample_size_of tree : Rat)
    * ((code_files_of tree).length : Rat))).toNat

/-- `int(estimated_total * 1.2)`, with the float constant `1.2` taken as
the exact rational `6 / 5`. -/
def estimated_total_lines_of (tree : GitTree) : Nat :=
  (Int.floor ((estimated_code_lines_of tree : Rat) * (6 / 5 : Rat))).toNat

/-- `TlocCalculator.calculate_project_tloc_at_commit`: sampling-based
estimate.  The totals stay at their zero initialisation unless the sampled
code-line sum is positive. -/
def calculate_project_tloc_at_commit (tree : GitTree) : ProjectTloc :=
  if 0 < total_lines_sample_of tree then
    { file_count := (code_files_of tree).length
      total_lines := estimated_total_lines_of tree
      code_lines := estimated_code_lines_of tree
      blank_lines := estimated_total_lines_of tree - estimated_code_lines_of tree
      sampled_files := sample_files_of tree }
  else
    { file_count := (code_files_of tree).length
      total_lines := 0
      code_lines := 0
      blank_lines := 0
      sampled_files := sample_files_of tree }

/-- Change classification letters produced by the diff
(`change.change_type`). -/
inductive ChangeKind
  | A
  | M
  | D
deriving DecidableEq, Repr

/-- One diff entry, as the extractor consumes it: optional path on each
side plus the classification. -/
structure Change where
  a_path : Option String
  b_path : Option String
  change_type : ChangeKind
deriving DecidableEq, Repr

/-- Git tree diff from `aT` (the parent side) to `bT` (the commit side):
a path only in `bT` is Added with only a `b_path`; a path in both with
different content is Modified; a path only in `aT` is Deleted with only an
`a_path`.  `parent_commit.diff(self.commit)` produces these entries, and
`self.commit.diff(git.NULL_TREE)` on a root commit behaves like
`aT = []` (GitPython runs `git diff-tree --root`, so every file of a root
commit is reported as Added). -/
def treeDiff (aT bT : GitTree) : List Change :=
  (bT.filterMap fun pc =>
    match lookupPath aT pc.1 with
    | none => some { a_path := none, b_path := some pc.1, change_type := ChangeKind.A }
    | some c0 =>
      if c0 ≠ pc.2 then
        some { a_path := some pc.1, b_path := some pc.1, change_type := ChangeKind.M }
      else none)
  ++ (aT.filterMap fun pc =>
    if (lookupPath bT pc.1).isNone then
      some { a_path := some pc.1, b_path := none, change_type := ChangeKind.D }
    else none)

/-- The diff computed by `CommitTimelineData._calculate_file_changes`:
against the first parent's tree when there is one, otherwise against the
empty tree. -/
def diff_of (ct : GitTree) (ptOpt : Option GitTree) : List Change :=
  match ptOpt with
  | some pt => treeDiff pt ct
  | none => treeDiff ([] : GitTree) ct

/-- One entry of the `tloc_changes` dictionary. -/
structure FileDelta where
  before : LineCounts
  after : LineCounts
  change : Int
deriving DecidableEq, Repr

/-- The loop body of `_calculate_file_changes` for one diff entry:
`file_path = change.b_path or change.a_path`; for code files, `after` is
the exact count at the commit unless the change is a Delete, `before` is
the exact count at the first parent unless the change is an Add or the
commit has no parents, and `change` is the code-line difference. -/
def tloc_entry (ct : GitTree) (ptOpt : Option GitTree) (c : Change) :
    Option (String × FileDelta) :=
  match c.b_path <|> c.a_path with
  | none => none
  | some p =>
    if is_code_file p then
      let after :=
        if c.change_type ≠ ChangeKind.D then
          calculate_file_tloc_at_commit ct p
        else ⟨0, 0, 0⟩
      let before :=
        if c.change_type ≠ ChangeKind.A ∧ ptOpt.isSome = true then
          calculate_file_tloc_at_commit (ptOpt.getD []) p
        else ⟨0, 0, 0⟩
      some (p, ⟨before, after, (after.code : Int) - (before.code : Int)⟩)
    else none

/-- The lists and dictionary populated by
`CommitTimelineData._calculate_file_changes`. -/
structure FileChanges where
  files_added : List String
  files_modified : List String
  files_deleted : List String
  affected_files : List String
  tloc_changes : List (String × FileDelta)
deriving DecidableEq, Repr

/-- `CommitTimelineData._calculate_file_changes` for a commit with tree
`ct` and first-parent tree `ptOpt` (`none` for a root commit). -/
def calculate_file_changes (ct : GitTree) (ptOpt : Option GitTree) : FileChanges :=
  let diff := diff_of ct ptOpt
  { files_added := diff.filterMap
      (fun c => if c.change_type = ChangeKind.A then c.b_path <|> c.a_path else none)
    files_modified := diff.filterMap
      (fun c => if c.change_type = ChangeKind.M then c.b_path <|> c.a_path else none)
    files_deleted := diff.filterMap
      (fun c => if c.change_type = ChangeKind.D then c.b_path <|> c.a_path else none)
    affected_files := diff.filterMap (fun c => c.b_path <|> c.a_path)
    tloc_changes := diff.filterMap (tloc_entry ct ptOpt) }

/-- Python `<` on strings, lexicographic by code point, restricted here to
the `≤` form used by `sorted`. -/
def lexLeChars : List Char → List Char → Bool
  | [], _ => true
  | _ :: _, [] => false
  | a :: as, b :: bs => if a < b then true else if b < a then false else lexLeChars as bs

/-- Boolean string comparison backing Python `sorted` on branch names. -/
def strLe (a b : String) : Bool :=
  lexLeChars a.toList b.toList

/-- The order relation passed to the sort. -/
def branchLe (a b : String) : Prop :=
  strLe a b = true

instance : DecidableRel branchLe :=
  fun a b => instDecidableEqBool (strLe a b) true

/-- Building the Python `set` of branch names from the observed list:
first occurrences are kept, duplicates dropped.  A `set` has no intrinsic
order, so only the membership of this list is meaningful; `sorted`
canonicalises it. -/
def pyDedup : List String → List String
  | [] => []
  | x :: xs => x :: (pyDedup xs).filter (fun y => y ≠ x)

/-- Python `sorted(branch_names)` inside `_calculate_branch_info`. -/
def sorted_branch_names (names : List String) : List String :=
  List.insertionSort branchLe (pyDedup names)

/-- The fixed 8-colour palette (`colors` in `_calculate_branch_info`),
each entry an RGB triple. -/
def timelineColors : List (Nat × Nat × Nat) :=
  [(255, 100, 100), (100, 255, 100), (100, 100, 255), (255, 255, 100),
   (255, 100, 255), (100, 255, 255), (255, 150, 100), (150, 100, 255)]

/-- The `for i, branch in enumerate(sorted(branch_names))` loop: the name
at sorted index `i` receives `colors[i % len(colors)]`. -/
def assignColorsFrom (i : Nat) : List String → List (String × (Nat × Nat × Nat))
  | [] => []
  | b :: rest =>
    (b, timelineColors.getD (i % timelineColors.length) (0, 0, 0)) ::
      assignColorsFrom (i + 1) rest

/-- The colour-assignment pass of `TimelinePanel._calculate_branch_info`,
as the per-batch mapping it writes into `branch_colors`: input is the list
of branch names observed across the batch (duplicates allowed, order
irrelevant). -/
def calculate_branch_info (names : List String) : List (String × (Nat × Nat × Nat)) :=
  assignColorsFrom 0 (sorted_branch_names names)

/-- Messages the refresh worker posts back to the interactive layer. -/
inductive UiMsg
  | errorBox : String → UiMsg
  | timelineUpdated : UiMsg
deriving DecidableEq, Repr

/-- State-level model of `TimelinePanel.refresh_timeline`'s worker: the
first statement of the worker is `self.timeline_data = []`, after which the
commit walk either succeeds (the new batch is built and one update message
posted) or raises (one error box posted).  `prev` is the record list from
the previous successful batch; commits are abstracted to identifiers. -/
def refresh_timeline_step (_prev : List Nat) (fetch : Except String (List Nat)) :
    List Nat × List UiMsg :=
  let cleared : List Nat := []
  match fetch with
  | Except.ok commits => (cleared ++ commits, [UiMsg.timelineUpdated])
  | Except.error e => (cleared, [UiMsg.errorBox e])

/-- Model of how completed refresh batches reach the display state: each
worker ends by storing its batch into `self.timeline_data` with no
generation tag or staleness check, so after a sequence of completions
(listed in completion order, each tagged with the generation that issued
it) the display state is simply the data of whichever worker completed
last. -/
def apply_completions (completions : List (Nat × List Nat)) : List Nat :=
  completions.foldl (fun _ c => c.2) []

/-! ## Shared helper lemmas -/

theorem project_tloc_sampled_files (tree : GitTree) :
    (calculate_project_tloc_at_commit tree).sampled_files = sample_files_of tree := by
  unfold calculate_project_tloc_at_commit
  split <;> rfl

theorem project_tloc_file_count (tree : GitTree) :
    (calculate_project_tloc_at_commit tree).file_count = (code_files_of tree).length := by
  unfold calculate_project_tloc_at_commit
  split <;> rfl

theorem project_tloc_of_pos (tree : GitTree) (h : 0 < total_lines_sample_of tree) :
    calculate_project_tloc_at_commit tree =
      { file_count := (code_files_of tree).length
        total_lines := estimated_total_lines_of tree
        code_lines := estimated_code_lines_of tree
        blank_lines := estimated_total_lines_of tree - estimated_code_lines_of tree
        sampled_files := sample_files_of tree } := by
  unfold calculate_project_tloc_at_commit
  rw [if_pos h]

theorem project_tloc_of_zero (tree : GitTree) (h : total_lines_sample_of tree = 0) :
    calculate_project_tloc_at_commit tree =
      { file_count := (code_files_of tree).length
        total_lines := 0
        code_lines := 0
        blank_lines := 0
        sampled_files := sample_files_of tree } := by
  unfold calculate_project_tloc_at_commit
  rw [if_neg (by omega)]

theorem filter_replicate_pos {α : Type} (p : α → Bool) (a : α) (h : p a = true) :
    ∀ n, (List.replicate n a).filter p = List.replicate n a
  | 0 => rfl
  | n + 1 => by
    simp only [List.replicate_succ, List.filter_cons, h, if_true]
    rw [filter_replicate_pos p a h n]

theorem lexLeChars_nil (bs : List Char) : lexLeChars [] bs = true := rfl

theorem lexLeChars_cons_nil (a : Char) (as : List Char) :
    lexLeChars (a :: as) [] = false := rfl

theorem lexLeChars_cons_iff (a b : Char) (as bs : List Char) :
    lexLeChars (a :: as) (b :: bs) = true
      ↔ a < b ∨ (a = b ∧ lexLeChars as bs = true) := by
  show (if a < b then true else if b < a then false else lexLeChars as bs) = true ↔ _
  split_ifs with h1 h2
  · simp [h1]
  · constructor
    · intro h
      exact absurd h (by simp)
    · rintro (h | ⟨rfl, _⟩)
      · exact absurd h h1
      · exact absurd h2 (lt_irrefl a)
  · have hab : a = b := le_antisymm (le_of_not_lt h2) (le_of_not_lt h1)
    subst hab
    simp [lt_irrefl]

theorem lexLeChars_total : ∀ as bs : List Char,
    lexLeChars as bs = true ∨ lexLeChars bs as = true
  | [], _ => Or.inl rfl
  | _ :: _, [] => Or.inr rfl
  | a :: as, b :: bs => by
    rcases lt_trichotomy a b with h | h | h
    · exact Or.inl ((lexLeChars_cons_iff a b as bs).mpr (Or.inl h))
    · subst h
      rcases lexLeChars_total as bs with h | h
      · exact Or.inl ((lexLeChars_cons_iff a a as bs).mpr (Or.inr ⟨rfl, h⟩))
      · exact Or.inr ((lexLeChars_cons_iff a a bs as).mpr (Or.inr ⟨rfl, h⟩))
    · exact Or.inr ((lexLeChars_cons_iff b a bs as).mpr (Or.inl h))

theorem lexLeChars_trans : ∀ as bs cs : List Char,
    lexLeChars as bs = true → lexLeChars bs cs = true → lexLeChars as cs = true
  | [], _, _, _, _ => rfl
  | _ :: _, [], _, h1, _ => absurd h1 (by simp [lexLeChars_cons_nil])
  | _ :: _, _ :: _, [], _, h2 => absurd h2 (by simp [lexLeChars_cons_nil])
  | a :: as, b :: bs, c :: cs, h1, h2 => by
    have h1i := (lexLeChars_cons_iff a b as bs).mp h1
    have h2i := (lexLeChars_cons_iff b c bs cs).mp h2
    apply (lexLeChars_cons_iff a c as cs).mpr
    rcases h1i with hab | ⟨hab, hab2⟩
    · rcases h2i with hbc | ⟨hbc, hbc2⟩
      · exact Or.inl (lt_trans hab hbc)
      · exact Or.inl (lt_of_lt_of_le hab (le_of_eq hbc))
    · rcases h2i with hbc | ⟨hbc, hbc2⟩
      · exact Or.inl (lt_of_le_of_lt (le_of_eq hab) hbc)
      · exact Or.inr ⟨hab.trans hbc, lexLeChars_trans as bs cs hab2 hbc2⟩

theorem lexLeChars_antisymm : ∀ as bs : List Char,
    lexLeChars as bs = true → lexLeChars bs as = true → as = bs
  | [], [], _, _ => rfl
  | [], _ :: _, _, h2 => absurd h2 (by simp [lexLeChars_cons_nil])
  | _ :: _, [], h1, _ => absurd h1 (by simp [lexLeChars_cons_nil])
  | a :: as, b :: bs, h1, h2 => by
    have h1i := (lexLeChars_cons_iff a b as bs).mp h1
    have h2i := (lexLeChars_cons_iff b a bs as).mp h2
    rcases h1i with hab | ⟨hab, hab2⟩
    · rcases h2i with hba | ⟨hba, hba2⟩
      · exact absurd hba (lt_asymm hab)
      · rw [hba] at hab
        exact absurd hab (lt_irrefl a)
    · rcases h2i with hba | ⟨hba, hba2⟩
      · rw [hab] at hba
        exact absurd hba (lt_irrefl b)
      · rw [hab, lexLeChars_antisymm as bs hab2 hba2]

instance : IsTotal String branchLe :=
  ⟨fun a b => lexLeChars_total a.toList b.toList⟩

instance : IsTrans String branchLe :=
  ⟨fun a b c => lexLeChars_trans a.toList b.toList c.toList⟩

instance : IsAntisymm String branchLe :=
  ⟨fun a b h1 h2 => by
    have h := lexLeChars_antisymm a.toList b.toList h1 h2
    exact String.ext h⟩

theorem mem_pyDedup : ∀ (l : List String) (x : String), x ∈ pyDedup l ↔ x ∈ l := by
  intro l
  induction l with
  | nil => intro x; rfl
  | cons a l ih =>
    intro x
    by_cases hxa : x = a
    · subst hxa
      simp [pyDedup]
    · simp [pyDedup, List.mem_filter, hxa, ih]

theorem nodup_pyDedup : ∀ l : List String, (pyDedup l).Nodup := by
  intro l
  induction l with
  | nil => exact List.nodup_nil
  | cons a l ih =>
    refine List.Nodup.cons ?_ (List.Nodup.filter _ ih)
    intro hmem
    rcases List.mem_filter.mp hmem with ⟨_, hne⟩
    simp at hne

theorem assignColorsFrom_get? : ∀ (l : List String) (i n : Nat),
    (assignColorsFrom i l).get? n
      = (l.get? n).map
          (fun b => (b, timelineColors.getD ((i + n) % timelineColors.length) (0, 0, 0))) := by
  intro l
  induction l with
  | nil => intro i n; simp [assignColorsFrom]
  | cons b rest ih =>
    intro i n
    cases n with
    | zero => simp [assignColorsFrom]
    | succ n =>
      show (assignColorsFrom (i + 1) rest).get? n = _
      rw [ih (i + 1) n]
      have : i + 1 + n = i + (n + 1) := by omega
      rw [this]
      rfl

/-- Identical branch-name sets produce identical sorted lists. -/
theorem sorted_branch_names_set_deterministic (l1 l2 : List String)
    (h : ∀ x, x ∈ l1 ↔ x ∈ l2) :
    sorted_branch_names l1 = sorted_branch_names l2 := by
  unfold sorted_branch_names
  have pd : List.Perm (pyDedup l1) (pyDedup l2) :=
    (List.perm_ext_iff_of_nodup (nodup_pyDedup l1) (nodup_pyDedup l2)).mpr
      (fun a => by rw [mem_pyDedup, mem_pyDedup]; exact h a)
  exact List.eq_of_perm_of_sorted
    ((List.perm_insertionSort branchLe (pyDedup l1)).trans
      (pd.trans (List.perm_insertionSort branchLe (pyDedup l2)).symm))
    (List.sorted_insertionSort branchLe (pyDedup l1))
    (List.sorted_insertionSort branchLe (pyDedup l2))

/-! ## Claim C5 -/

/-- C5: the single-file line-count operation on a path absent at the commit
(or whose content read fails, which `lookupPath = none` also models)
returns `{0,0,0}`; being a total function, it never raises to its
caller. -/
theorem C5_absent_file_returns_zero (tree : GitTree) (path : String)
    (h : lookupPath tree path = none) :
    calculate_file_tloc_at_commit tree path = ⟨0, 0, 0⟩ := by
  unfold calculate_file_tloc_at_commit
  rw [h]

/-- Witness for C5 at a concrete absent path. -/
theorem C5_absent_file_returns_zero_witness :
    calculate_file_tloc_at_commit [("a.py", "x")] "missing.py" = ⟨0, 0, 0⟩ :=
  C5_absent_file_returns_zero [("a.py", "x")] "missing.py" (by decide)

/-! ## Claim C6 -/

/-- C6: for a file that exists at the commit, the single-file counter
returns `(total, code, blank)` with `total` the number of lines, `blank`
the number of lines that are empty or whitespace-only after trimming,
`code = total - blank`, and `total = code + blank` exactly. -/
theorem C6_exact_single_file_invariant (tree : GitTree) (path content : String)
    (h : lookupPath tree path = some content) :
    (calculate_file_tloc_at_commit tree path).total = (pySplitlines content).length ∧
    (calculate_file_tloc_at_commit tree path).blank
      = ((pySplitlines content).filter isBlankLine).length ∧
    (calculate_file_tloc_at_commit tree path).code
      = (calculate_file_tloc_at_commit tree path).total
        - (calculate_file_tloc_at_commit tree path).blank ∧
    (calculate_file_tloc_at_commit tree path).total
      = (calculate_file_tloc_at_commit tree path).code
        + (calculate_file_tloc_at_commit tree path).blank := by
  unfold calculate_file_tloc_at_commit
  rw [h]
  unfold countLineContent
  refine ⟨rfl, rfl, rfl, ?_⟩
  have hle : ((pySplitlines content).filter isBlankLine).length
      ≤ (pySplitlines content).length := List.length_filter_le _ _
  simp only
  omega

/-- Witness for C6 at a concrete present file with one blank line. -/
theorem C6_exact_single_file_invariant_witness :
    (calculate_file_tloc_at_commit [("a.py", "x\n\ny")] "a.py").total
      = (pySplitlines "x\n\ny").length ∧
    (calculate_file_tloc_at_commit [("a.py", "x\n\ny")] "a.py").blank
      = ((pySplitlines "x\n\ny").filter isBlankLine).length ∧
    (calculate_file_tloc_at_commit [("a.py", "x\n\ny")] "a.py").code
      = (calculate_file_tloc_at_commit [("a.py", "x\n\ny")] "a.py").total
        - (calculate_file_tloc_at_commit [("a.py", "x\n\ny")] "a.py").blank ∧
    (calculate_file_tloc_at_commit [("a.py", "x\n\ny")] "a.py").total
      = (calculate_file_tloc_at_commit [("a.py", "x\n\ny")] "a.py").code
        + (calculate_file_tloc_at_commit [("a.py", "x\n\ny")] "a.py").blank :=
  C6_exact_single_file_invariant [("a.py", "x\n\ny")] "a.py" "x\n\ny" (by decide)

/-! ## Claim C10 -/

/-- C10: the filename fallback of the classifier keys on the substring of
the lowercased basename before the first dot, so `go.mod` and `go.sum` are
rejected even though both strings sit in the allow-list, while any path
whose first dot-segment is an allow-listed name is accepted. -/
theorem C10_first_dot_segment_classification :
    is_code_file "go.mod" = false ∧
    is_code_file "go.sum" = false ∧
    "go.mod" ∈ code_filenames ∧
    "go.sum" ∈ code_filenames ∧
    is_code_file "dockerfile.prod" = true ∧
    is_code_file "package.json.bak" = true ∧
    (∀ p : String, firstDotSegment (pyBasename (pyLower p)) ∈ code_filenames →
      is_code_file p = true) := by
  refine ⟨by decide, by decide, by decide, by decide, by decide, by decide, ?_⟩
  intro p hp
  unfold is_code_file
  dsimp only
  split
  · rfl
  · exact List.elem_iff.mpr hp

/-- Witness for C10's general clause at a concrete path. -/
theorem C10_first_dot_segment_classification_witness :
    is_code_file "dockerfile.prod" = true :=
  C10_first_dot_segment_classification.2.2.2.2.2.2 "dockerfile.prod" (by decide)

/-! ## Claim C4 -/

/-- C4: the aggregator's full-content reads are exactly the first
`min(10, file_count)` code paths in tree-listing order, so their number is
`min 10 file_count`; in particular a commit with 5000 code files triggers
exactly 10 reads. -/
theorem C4_aggregation_read_bound (tree : GitTree) :
    (calculate_project_tloc_at_commit tree).sampled_files
      = (code_files_of tree).take (min 10 (code_files_of tree).length) ∧
    (calculate_project_tloc_at_commit tree).sampled_files.length
      = min 10 (calculate_project_tloc_at_commit tree).file_count ∧
    ((calculate_project_tloc_at_commit tree).file_count = 5000 →
      (calculate_project_tloc_at_commit tree).sampled_files.length = 10) := by
  have h1 : (calculate_project_tloc_at_commit tree).sampled_files
      = (code_files_of tree).take (min 10 (code_files_of tree).length) := by
    rw [project_tloc_sampled_files]
    rfl
  have h2 : (calculate_project_tloc_at_commit tree).sampled_files.length
      = min 10 (calculate_project_tloc_at_commit tree).file_count := by
    rw [h1, project_tloc_file_count, List.length_take]
    omega
  refine ⟨h1, h2, ?_⟩
  intro h5
  rw [h2, h5]
  exact min_eq_left (by norm_num)

/-- Witness for C4's 5000-file clause, on a tree with 5000 code files. -/
theorem C4_aggregation_read_bound_witness :
    (calculate_project_tloc_at_commit (List.replicate 5000 ("a.py", "x"))).sampled_files.length
      = 10 := by
  have hfc : (calculate_project_tloc_at_commit (List.replicate 5000 ("a.py", "x"))).file_count
      = 5000 := by
    rw [project_tloc_file_count]
    unfold code_files_of
    rw [List.map_replicate]
    rw [filter_replicate_pos _ _ (by decide : is_code_file "a.py" = true)]
    exact List.length_replicate 5000 "a.py"
  exact (C4_aggregation_read_bound (List.replicate 5000 ("a.py", "x"))).2.2 hfc

/-! ## Claim C1 -/

/-- C1 (amended): for a commit whose sampled code-line sum is non-zero the
aggregator computes `avg = sample_sum / sample_size`,
`estimated_code_lines = int(avg * file_count)` (truncation toward zero,
i.e. floor on these non-negative values — not rounding),
`estimated_total_lines = int(estimated_code_lines * 1.2)` (again
truncation), and `estimated_blank_lines = estimated_total_lines -
estimated_code_lines`; when the sampled sum is zero (including the
no-code-file case) all three totals are zero. -/
theorem C1_aggregation_formula_truncates (tree : GitTree) :
    (0 < total_lines_sample_of tree →
      (calculate_project_tloc_at_commit tree).code_lines
        = (Int.floor ((total_lines_sample_of tree : Rat) / (sample_size_of tree : Rat)
            * ((code_files_of tree).length : Rat))).toNat ∧
      (calculate_project_tloc_at_commit tree).total_lines
        = (Int.floor (((calculate_project_tloc_at_commit tree).code_lines : Rat)
            * (6 / 5 : Rat))).toNat ∧
      (calculate_project_tloc_at_commit tree).blank_lines
        = (calculate_project_tloc_at_commit tree).total_lines
          - (calculate_project_tloc_at_commit tree).code_lines) ∧
    (total_lines_sample_of tree = 0 →
      (calculate_project_tloc_at_commit tree).total_lines = 0 ∧
      (calculate_project_tloc_at_commit tree).code_lines = 0 ∧
      (calculate_project_tloc_at_commit tree).blank_lines = 0) := by
  constructor
  · intro hpos
    rw [project_tloc_of_pos tree hpos]
    exact ⟨rfl, rfl, rfl⟩
  · intro hzero
    rw [project_tloc_of_zero tree hzero]
    exact ⟨rfl, rfl, rfl⟩

/-- Witness for C1's amended formula on a one-file tree (3 code lines):
the estimate truncates `3 * 1.2 = 3.6` down to 3. -/
theorem C1_aggregation_formula_truncates_witness :
    (calculate_project_tloc_at_commit [("a.py", "x\ny\nz")]).code_lines
      = (Int.floor ((total_lines_sample_of [("a.py", "x\ny\nz")] : Rat)
          / (sample_size_of [("a.py", "x\ny\nz")] : Rat)
          * ((code_files_of [("a.py", "x\ny\nz")]).length : Rat))).toNat ∧
    (calculate_project_tloc_at_commit [("a.py", "x\ny\nz")]).total_lines
      = (Int.floor (((calculate_project_tloc_at_commit [("a.py", "x\ny\nz")]).code_lines : Rat)
          * (6 / 5 : Rat))).toNat ∧
    (calculate_project_tloc_at_commit [("a.py", "x\ny\nz")]).blank_lines
      = (calculate_project_tloc_at_commit [("a.py", "x\ny\nz")]).total_lines
        - (calculate_project_tloc_at_commit [("a.py", "x\ny\nz")]).code_lines :=
  (C1_aggregation_formula_truncates [("a.py", "x\ny\nz")]).1 (by decide)

/-- Counterexample to C1 as stated: on a tree with a single code file of 3
code lines the code computes `estimated_code_lines = 3` but
`estimated_total_lines = int(3 * 1.2) = 3`, whereas the claimed
`round(3 * 1.2) = 4`. -/
theorem C1_aggregation_round_counterexample :
    (calculate_project_tloc_at_commit [("a.py", "x\ny\nz")]).code_lines = 3 ∧
    (calculate_project_tloc_at_commit [("a.py", "x\ny\nz")]).total_lines = 3 ∧
    ¬ (((calculate_project_tloc_at_commit [("a.py", "x\ny\nz")]).total_lines : Int)
        = round (((calculate_project_tloc_at_commit [("a.py", "x\ny\nz")]).code_lines : Rat)
            * (6 / 5 : Rat))) := by
  have hpos : 0 < total_lines_sample_of [("a.py", "x\ny\nz")] := by decide
  have hs : total_lines_sample_of [("a.py", "x\ny\nz")] = 3 := by decide
  have hss : sample_size_of [("a.py", "x\ny\nz")] = 1 := by decide
  have hfc : (code_files_of [("a.py", "x\ny\nz")]).length = 1 := by decide
  have hcode : (calculate_project_tloc_at_commit [("a.py", "x\ny\nz")]).code_lines = 3 := by
    rw [project_tloc_of_pos _ hpos]
    show estimated_code_lines_of _ = 3
    rw [estimated_code_lines_of, hs, hss, hfc]
    norm_num
    decide
  have htot : (calculate_project_tloc_at_commit [("a.py", "x\ny\nz")]).total_lines = 3 := by
    rw [project_tloc_of_pos _ hpos]
    show estimated_total_lines_of _ = 3
    rw [estimated_total_lines_of, estimated_code_lines_of, hs, hss, hfc]
    norm_num
    rw [(by decide : Int.toNat 3 = 3)]
    norm_num
    decide
  refine ⟨hcode, htot, ?_⟩
  rw [hcode, htot]
  have hround : round ((3 : Rat) * (6 / 5 : Rat)) = (4 : Int) := by
    rw [round_eq]
    norm_num
  push_cast
  rw [hround]
  norm_num

/-! ## Claims C2 and C3 -/

theorem tloc_changes_eq (ct : GitTree) (ptOpt : Option GitTree) :
    (calculate_file_changes ct ptOpt).tloc_changes
      = (diff_of ct ptOpt).filterMap (tloc_entry ct ptOpt) := rfl

theorem files_added_eq (ct : GitTree) (ptOpt : Option GitTree) :
    (calculate_file_changes ct ptOpt).files_added
      = (diff_of ct ptOpt).filterMap
          (fun c => if c.change_type = ChangeKind.A then c.b_path <|> c.a_path else none) := rfl

theorem files_modified_eq (ct : GitTree) (ptOpt : Option GitTree) :
    (calculate_file_changes ct ptOpt).files_modified
      = (diff_of ct ptOpt).filterMap
          (fun c => if c.change_type = ChangeKind.M then c.b_path <|> c.a_path else none) := rfl

theorem files_deleted_eq (ct : GitTree) (ptOpt : Option GitTree) :
    (calculate_file_changes ct ptOpt).files_deleted
      = (diff_of ct ptOpt).filterMap
          (fun c => if c.change_type = ChangeKind.D then c.b_path <|> c.a_path else none) := rfl

theorem affected_files_eq (ct : GitTree) (ptOpt : Option GitTree) :
    (calculate_file_changes ct ptOpt).affected_files
      = (diff_of ct ptOpt).filterMap (fun c => c.b_path <|> c.a_path) := rfl

/-- Characterisation of a successful `tloc_entry`. -/
theorem tloc_entry_some (ct : GitTree) (ptOpt : Option GitTree) (c : Change)
    (p : String) (d : FileDelta) (he : tloc_entry ct ptOpt c = some (p, d)) :
    (c.b_path <|> c.a_path) = some p ∧
    is_code_file p = true ∧
    d.after = (if c.change_type ≠ ChangeKind.D then calculate_file_tloc_at_commit ct p
               else ⟨0, 0, 0⟩) ∧
    d.before = (if c.change_type ≠ ChangeKind.A ∧ ptOpt.isSome = true then
                  calculate_file_tloc_at_commit (ptOpt.getD []) p
                else ⟨0, 0, 0⟩) ∧
    d.change = (d.after.code : Int) - (d.before.code : Int) := by
  unfold tloc_entry at he
  rcases hbp : c.b_path <|> c.a_path with _ | q
  · rw [hbp] at he
    exact absurd he (by simp)
  · rw [hbp] at he
    dsimp only at he
    by_cases hcode : is_code_file q
    · rw [if_pos hcode] at he
      have hinj := Option.some.inj he
      rw [Prod.ext_iff] at hinj
      obtain ⟨hq, hd⟩ := hinj
      cases hq
      dsimp only at hd
      rw [← hd]
      exact ⟨rfl, hcode, rfl, rfl, rfl⟩
    · rw [if_neg hcode] at he
      exact absurd he (by simp)

/-- C2: every entry recorded in `tloc_changes` is for a code file, comes
from a diff entry whose canonical path is that file, carries
`net_code_delta = after.code - before.code`, and its `before`/`after`
counts follow the Added/Deleted/root absence convention with the exact
single-file counts otherwise. -/
theorem C2_net_delta_consistency (ct : GitTree) (ptOpt : Option GitTree)
    (p : String) (d : FileDelta)
    (h : (p, d) ∈ (calculate_file_changes ct ptOpt).tloc_changes) :
    is_code_file p = true ∧
    d.change = (d.after.code : Int) - (d.before.code : Int) ∧
    ∃ c ∈ diff_of ct ptOpt,
      (c.b_path <|> c.a_path) = some p ∧
      d.after = (if c.change_type ≠ ChangeKind.D then calculate_file_tloc_at_commit ct p
                 else ⟨0, 0, 0⟩) ∧
      d.before = (if c.change_type ≠ ChangeKind.A ∧ ptOpt.isSome = true then
                    calculate_file_tloc_at_commit (ptOpt.getD []) p
                  else ⟨0, 0, 0⟩) := by
  rw [tloc_changes_eq] at h
  rcases List.mem_filterMap.mp h with ⟨c, hc, he⟩
  rcases tloc_entry_some ct ptOpt c p d he with ⟨hbp, hcode, hafter, hbefore, hchange⟩
  exact ⟨hcode, hchange, c, hc, hbp, hafter, hbefore⟩

/-- Witness for C2 on a one-file modification. -/
theorem C2_net_delta_consistency_witness :
    is_code_file "a.py" = true ∧
    (FileDelta.mk ⟨1, 1, 0⟩ ⟨2, 2, 0⟩ 1).change
      = ((FileDelta.mk ⟨1, 1, 0⟩ ⟨2, 2, 0⟩ 1).after.code : Int)
        - ((FileDelta.mk ⟨1, 1, 0⟩ ⟨2, 2, 0⟩ 1).before.code : Int) ∧
    ∃ c ∈ diff_of [("a.py", "x\ny")] (some [("a.py", "x")]),
      (c.b_path <|> c.a_path) = some "a.py" ∧
      (FileDelta.mk ⟨1, 1, 0⟩ ⟨2, 2, 0⟩ 1).after
        = (if c.change_type ≠ ChangeKind.D then
             calculate_file_tloc_at_commit [("a.py", "x\ny")] "a.py"
           else ⟨0, 0, 0⟩) ∧
      (FileDelta.mk ⟨1, 1, 0⟩ ⟨2, 2, 0⟩ 1).before
        = (if c.change_type ≠ ChangeKind.A ∧ (some [("a.py", "x")] : Option GitTree).isSome = true then
             calculate_file_tloc_at_commit ((some [("a.py", "x")] : Option GitTree).getD []) "a.py"
           else ⟨0, 0, 0⟩) :=
  C2_net_delta_consistency [("a.py", "x\ny")] (some [("a.py", "x")]) "a.py"
    (FileDelta.mk ⟨1, 1, 0⟩ ⟨2, 2, 0⟩ 1) (by decide)

/-- A root commit diffs against the empty tree: every entry is an Add of a
path of the commit's tree. -/
theorem diff_root_eq (ct : GitTree) :
    diff_of ct none
      = ct.map (fun pc => { a_path := none, b_path := some pc.1,
                            change_type := ChangeKind.A }) := by
  show treeDiff [] ct = _
  unfold treeDiff
  induction ct with
  | nil => rfl
  | cons pc rest ih =>
    simp only [List.filterMap_cons] at ih ⊢
    rw [List.map_cons]
    simp only [lookupPath] at ih ⊢
    rw [List.filterMap_nil] at ih ⊢
    simp only [List.append_nil] at ih ⊢
    rw [ih]

/-- C3: for a commit with zero parents the extractor diffs against the
empty tree, classifies every changed file as Added (no Modified or
Deleted entries, and the Added list is the whole affected list), and every
recorded delta has `before = {0,0,0}`. -/
theorem C3_root_commit_all_added (ct : GitTree) :
    (∀ c ∈ diff_of ct none, c.change_type = ChangeKind.A) ∧
    (calculate_file_changes ct none).files_modified = [] ∧
    (calculate_file_changes ct none).files_deleted = [] ∧
    (calculate_file_changes ct none).files_added
      = (calculate_file_changes ct none).affected_files ∧
    (∀ p d, (p, d) ∈ (calculate_file_changes ct none).tloc_changes →
      d.before = ⟨0, 0, 0⟩) := by
  have hall : ∀ c ∈ diff_of ct none, c.change_type = ChangeKind.A := by
    intro c hc
    rw [diff_root_eq] at hc
    rcases List.mem_map.mp hc with ⟨pc, _, rfl⟩
    rfl
  refine ⟨hall, ?_, ?_, ?_, ?_⟩
  · rw [files_modified_eq]
    rw [List.filterMap_eq_nil_iff]
    intro c hc
    rw [hall c hc]
    rfl
  · rw [files_deleted_eq]
    rw [List.filterMap_eq_nil_iff]
    intro c hc
    rw [hall c hc]
    rfl
  · rw [files_added_eq, affected_files_eq]
    apply List.filterMap_congr
    intro c hc
    rw [hall c hc]
    rfl
  · intro p d h
    rw [tloc_changes_eq] at h
    rcases List.mem_filterMap.mp h with ⟨c, hc, he⟩
    rcases tloc_entry_some ct none c p d he with ⟨_, _, _, hbefore, _⟩
    rw [hbefore]
    rw [if_neg]
    simp

/-- Witness for C3 on a concrete root commit adding one code file. -/
theorem C3_root_commit_all_added_witness :
    (calculate_file_changes [("a.py", "x")] none).files_modified = [] ∧
    (calculate_file_changes [("a.py", "x")] none).files_deleted = [] ∧
    (FileDelta.mk ⟨0, 0, 0⟩ ⟨1, 1, 0⟩ 1).before = ⟨0, 0, 0⟩ := by
  have h := C3_root_commit_all_added [("a.py", "x")]
  exact ⟨h.2.1, h.2.2.1,
    h.2.2.2.2 "a.py" (FileDelta.mk ⟨0, 0, 0⟩ ⟨1, 1, 0⟩ 1) (by decide)⟩

/-! ## Claim C7 -/

/-- C7: the lane assignor sorts the collected branch names
lexicographically and gives the i-th name `palette[i mod 8]` from the
fixed 8-entry palette; on the set `{main, dev, feature-x}` the sorted
order is `[dev, feature-x, main]` with `palette[0..2]`, and any two runs
over the same name set yield identical colors. -/
theorem C7_deterministic_lane_assignment :
    timelineColors.length = 8 ∧
    sorted_branch_names ["main", "dev", "feature-x"] = ["dev", "feature-x", "main"] ∧
    calculate_branch_info ["main", "dev", "feature-x"]
      = [("dev", (255, 100, 100)), ("feature-x", (100, 255, 100)),
         ("main", (100, 100, 255))] ∧
    (∀ (names : List String) (i : Nat),
      (calculate_branch_info names).get? i
        = ((sorted_branch_names names).get? i).map
            (fun b => (b, timelineColors.getD (i % timelineColors.length) (0, 0, 0)))) ∧
    (∀ l1 l2 : List String, (∀ x, x ∈ l1 ↔ x ∈ l2) →
      calculate_branch_info l1 = calculate_branch_info l2) := by
  refine ⟨by decide, by decide, by decide, ?_, ?_⟩
  · intro names i
    unfold calculate_branch_info
    rw [assignColorsFrom_get?]
    simp
  · intro l1 l2 h
    unfold calculate_branch_info
    rw [sorted_branch_names_set_deterministic l1 l2 h]

/-- Witness for C7's determinism clause: two different observation orders
(with a duplicate) of the same name set give the same assignment. -/
theorem C7_deterministic_lane_assignment_witness :
    calculate_branch_info ["main", "dev", "feature-x"]
      = calculate_branch_info ["dev", "main", "feature-x", "dev"] :=
  C7_deterministic_lane_assignment.2.2.2.2 ["main", "dev", "feature-x"]
    ["dev", "main", "feature-x", "dev"]
    (fun x => by
      constructor <;> intro h <;> simp only [List.mem_cons] at h ⊢ <;> tauto)

/-! ## Claim C8 -/

/-- C8 (amended): when establishing the commit list fails, the refresh
worker aborts the batch and surfaces the error exactly once, but the
previously rendered batch is NOT left in place: the record list was
already reset to empty at the top of the worker, so the display state
after the failure is the empty batch. -/
theorem C8_error_aborts_surfaces_once_and_clears (prev : List Nat) (e : String) :
    refresh_timeline_step prev (Except.error e) = ([], [UiMsg.errorBox e]) := rfl

/-- Counterexample to C8 as stated: with a previously rendered non-empty
batch `[7]`, a failing commit walk leaves the record list empty, not equal
to the previous batch. -/
theorem C8_clears_previous_batch_counterexample :
    (refresh_timeline_step [7] (Except.error "bad selector")).1 = [] ∧
    (refresh_timeline_step [7] (Except.error "bad selector")).2
      = [UiMsg.errorBox "bad selector"] ∧
    ¬ ((refresh_timeline_step [7] (Except.error "bad selector")).1 = [7]) := by
  refine ⟨rfl, rfl, ?_⟩
  intro h
  simp [refresh_timeline_step] at h

/-! ## Claim C9 -/

/-- C9: the worker stores its batch with no generation check, so the
display state after a sequence of completions is the last completer's
batch; if refresh G2 (data `[2]`) completes before the older G1 (data
`[1]`), G1's stale result overwrites G2's: the final state is `[1]`, not
`[2]`. -/
theorem C9_stale_batch_overwrites :
    apply_completions [(2, [2]), (1, [1])] = [1] ∧ ([1] : List Nat) ≠ [2] := by
  exact ⟨rfl, by decide⟩
